import Mathlib

/-!
Verification of the iPXE APIPA (IPv4 link-local, RFC 3927) autoconfiguration
core found in src/usr/apipa.c, as a shallow embedding.

IPv4 addresses are 32-bit values in host byte order, modelled as Nat with an
explicit `% 2 ^ 32` wherever C uint32_t arithmetic can wrap.  Link-layer
addresses and received frames are byte lists (Fin 256), matching the uint8_t
buffers of the source.
-/

/-- Single octet, as stored in the C uint8_t buffers. -/
abbrev Byte : Type := Fin 256

/-- Constant APIPA_BASE from include/ipxe/apipa.h: 169.254.0.0, written in the
header as (169UL << 24) | (254UL << 16). -/
def APIPA_BASE : Nat := (169 <<< 24) ||| (254 <<< 16)

/-- Constant APIPA_NETMASK from include/ipxe/apipa.h: 255.255.0.0. -/
def APIPA_NETMASK : Nat := 0xFFFF0000

/-- Constant APIPA_MIN from include/ipxe/apipa.h: 169.254.1.0. -/
def APIPA_MIN : Nat := APIPA_BASE ||| (1 <<< 8)

/-- Constant APIPA_MAX from include/ipxe/apipa.h: 169.254.254.255. -/
def APIPA_MAX : Nat := APIPA_BASE ||| (254 <<< 8) ||| 255

/-- Constant APIPA_PROBE_NUM from include/ipxe/apipa.h. -/
def APIPA_PROBE_NUM : Nat := 3

/-- Constant APIPA_MAX_ATTEMPTS from include/ipxe/apipa.h. -/
def APIPA_MAX_ATTEMPTS : Nat := 10

/-- Constant APIPA_ADDR_MULTIPLIER from include/ipxe/apipa.h. -/
def APIPA_ADDR_MULTIPLIER : Nat := 65537

/-- First loop of apipa_generate_addr (apipa.c lines 75-79): fold the tail
bytes of the link-layer address into the seed with bitwise OR; iteration runs
while i < ll_addr_len and i < 4, taking the byte at index ll_addr_len - 1 - i
shifted left by i * 8.  A missing ll_addr (null pointer) is the empty list. -/
def apipa_seed_or (ll : List Byte) : Nat :=
  (List.range (min ll.length 4)).foldl
    (fun seed i => seed ||| ((ll.getD (ll.length - 1 - i) 0).val <<< (i * 8))) 0

/-- Second loop of apipa_generate_addr (apipa.c lines 84-86): XOR the leading
bytes back into the seed; iteration runs while i < ll_addr_len and i + 4 < 8,
i.e. for i < min ll_addr_len 4, shifting byte i left by (i % 4) * 8. -/
def apipa_seed_xor (ll : List Byte) (seed : Nat) : Nat :=
  (List.range (min ll.length 4)).foldl
    (fun s i => s ^^^ ((ll.getD i 0).val <<< ((i % 4) * 8))) seed

/-- apipa_generate_addr (apipa.c lines 61-98): derive the candidate address
from the link-layer address and the attempt number.  The C seed is a uint32_t,
so the addition of attempt * APIPA_ADDR_MULTIPLIER wraps modulo 2^32; the OR
and XOR folds cannot exceed 32 bits.  Returns the host-order address. -/
def apipa_generate_addr (ll : List Byte) (attempt : Nat) : Nat :=
  APIPA_MIN +
    ((apipa_seed_xor ll (apipa_seed_or ll) + attempt * APIPA_ADDR_MULTIPLIER)
        % 2 ^ 32)
      % (APIPA_MAX - APIPA_MIN + 1)

theorem APIPA_MIN_eq : APIPA_MIN = 2851995904 := by decide

theorem APIPA_MAX_eq : APIPA_MAX = 2852060927 := by decide

theorem apipa_range_eq : APIPA_MAX - APIPA_MIN + 1 = 65024 := by decide

/-- Bits of a value below 2 ^ s and of a value shifted left by s do not
overlap, so their bitwise OR is their sum. -/
theorem lor_shiftLeft_eq_add {a : Nat} (b s : Nat) (h : a < 2 ^ s) :
    a ||| (b <<< s) = a + b * 2 ^ s := by
  apply Nat.eq_of_testBit_eq
  intro i
  rcases Nat.lt_or_ge i s with hi | hi
  · have hdec : decide (s ≤ i) = false := by
      simp only [decide_eq_false_iff_not]; omega
    rw [Nat.testBit_lor, Nat.testBit_shiftLeft, hdec, Bool.false_and,
      Bool.or_false]
    have e2 := Nat.testBit_mod_two_pow (a + b * 2 ^ s) s i
    rw [Nat.add_mul_mod_self_right, Nat.mod_eq_of_lt h] at e2
    have hdec2 : decide (i < s) = true := by simpa using hi
    rw [hdec2, Bool.true_and] at e2
    exact e2
  · have ha : Nat.testBit a i = false :=
      Nat.testBit_lt_two_pow
        (lt_of_lt_of_le h (Nat.pow_le_pow_right (by norm_num) hi))
    have hdec : decide (s ≤ i) = true := by simpa using hi
    rw [Nat.testBit_lor, Nat.testBit_shiftLeft, ha, hdec, Bool.true_and,
      Bool.false_or]
    have hi' : i = s + (i - s) := by omega
    conv_rhs => rw [hi']
    rw [← Nat.testBit_shiftRight, Nat.shiftRight_eq_div_pow,
      Nat.add_mul_div_right _ _ (Nat.two_pow_pos s), Nat.div_eq_of_lt h,
      Nat.zero_add]

/-- The OR-fold of disjoint byte lanes coincides with the positional sum of
those bytes, and the partial sums stay below 2 ^ (8 * k). -/
theorem lor_fold_eq_add_fold (f : Nat → Nat) (hf : ∀ i, f i < 256) :
    ∀ k,
      ((List.range k).foldl (fun s i => s ||| (f i <<< (i * 8))) 0 =
          (List.range k).foldl (fun s i => s + f i * 256 ^ i) 0) ∧
        (List.range k).foldl (fun s i => s + f i * 256 ^ i) 0 < 2 ^ (8 * k) := by
  intro k
  induction k with
  | zero => simp
  | succ n ih =>
    obtain ⟨ihEq, ihLt⟩ := ih
    rw [List.range_succ, List.foldl_append, List.foldl_append, ihEq]
    simp only [List.foldl_cons, List.foldl_nil]
    have hpow : (256 : Nat) ^ n = 2 ^ (8 * n) := by
      rw [show (256 : Nat) = 2 ^ 8 by norm_num, ← Nat.pow_mul]
    have hshift : n * 8 = 8 * n := Nat.mul_comm n 8
    constructor
    · rw [hshift, lor_shiftLeft_eq_add (f n) (8 * n) ihLt, hpow]
    · have hb := hf n
      have hsucc : (2 : Nat) ^ (8 * (n + 1)) = 256 * 2 ^ (8 * n) := by
        rw [Nat.mul_add, Nat.mul_one, Nat.pow_add]
        ring
      rw [hpow]
      have hmul : f n * 2 ^ (8 * n) ≤ 255 * 2 ^ (8 * n) :=
        Nat.mul_le_mul_right _ (by omega)
      omega

/-- Reference algorithm, step 1, modelled from the spec: build the seed by
placing the identity byte at position len - 1 - i into seed byte i, for
i < min len 4 (a positional sum, rather than the OR-fold of the code). -/
def spec_seed_place (ll : List Byte) : Nat :=
  (List.range (min ll.length 4)).foldl
    (fun s i => s + (ll.getD (ll.length - 1 - i) 0).val * 256 ^ i) 0

/-- Reference algorithm, step 2, modelled from the spec: XOR identity byte i
into seed bit position (i % 4) * 8 for every index i with i + 4 < 8 for which
an identity byte exists. -/
def spec_seed_xor (ll : List Byte) (seed : Nat) : Nat :=
  (List.range 4).foldl
    (fun s i =>
      if i < ll.length then s ^^^ ((ll.getD i 0).val <<< ((i % 4) * 8)) else s)
    seed

/-- Reference algorithm as the claim states it, modelled from the spec: the
XOR step is applied only when the identity is shorter than 8 bytes; then
seed + attempt * 65537 is reduced modulo the usable range. -/
def spec_generate (ll : List Byte) (attempt : Nat) : Nat :=
  APIPA_MIN +
    (((if ll.length < 8 then spec_seed_xor ll (spec_seed_place ll)
        else spec_seed_place ll) + attempt * APIPA_ADDR_MULTIPLIER) % 2 ^ 32)
      % (APIPA_MAX - APIPA_MIN + 1)

/-- Amended reference algorithm: identical to spec_generate except that the
XOR step is applied for every identity length, not only lengths below 8. -/
def spec_generate_amended (ll : List Byte) (attempt : Nat) : Nat :=
  APIPA_MIN +
    ((spec_seed_xor ll (spec_seed_place ll) + attempt * APIPA_ADDR_MULTIPLIER)
        % 2 ^ 32)
      % (APIPA_MAX - APIPA_MIN + 1)

theorem apipa_seed_or_eq_place (ll : List Byte) :
    apipa_seed_or ll = spec_seed_place ll := by
  have hf : ∀ i, (ll.getD (ll.length - 1 - i) 0).val < 256 := fun i =>
    (ll.getD (ll.length - 1 - i) 0).isLt
  exact (lor_fold_eq_add_fold _ hf (min ll.length 4)).1

theorem spec_seed_place_lt (ll : List Byte) : spec_seed_place ll < 2 ^ 32 := by
  have hf : ∀ i, (ll.getD (ll.length - 1 - i) 0).val < 256 := fun i =>
    (ll.getD (ll.length - 1 - i) 0).isLt
  have h := (lor_fold_eq_add_fold _ hf (min ll.length 4)).2
  have hle : 2 ^ (8 * min ll.length 4) ≤ 2 ^ 32 :=
    Nat.pow_le_pow_right (by norm_num) (by omega)
  exact lt_of_lt_of_le h hle

/-- A fold over range (min n 4) equals the fold over range 4 guarded by
i < n. -/
theorem range_min4_foldl (g : Nat → Nat → Nat) (n : Nat) (s : Nat) :
    (List.range (min n 4)).foldl g s =
      (List.range 4).foldl (fun acc i => if i < n then g acc i else acc) s := by
  have h4 : List.range 4 = [0, 1, 2, 3] := by decide
  match n with
  | 0 => simp [h4]
  | 1 =>
    have h1 : List.range (min 1 4) = [0] := by decide
    rw [h1, h4]
    simp
  | 2 =>
    have h1 : List.range (min 2 4) = [0, 1] := by decide
    rw [h1, h4]
    simp
  | 3 =>
    have h1 : List.range (min 3 4) = [0, 1, 2] := by decide
    rw [h1, h4]
    simp
  | (m + 4) =>
    have h1 : min (m + 4) 4 = 4 := by omega
    have c0 : 0 < m + 4 := by omega
    have c1 : 1 < m + 4 := by omega
    have c2 : 2 < m + 4 := by omega
    have c3 : 3 < m + 4 := by omega
    rw [h1, h4]
    simp [c0, c1, c2, c3]

theorem apipa_seed_xor_eq_spec (ll : List Byte) (s : Nat) :
    apipa_seed_xor ll s = spec_seed_xor ll s := by
  unfold apipa_seed_xor spec_seed_xor
  exact range_min4_foldl _ ll.length s

theorem apipa_seed_xor_lt (ll : List Byte) (s : Nat) (hs : s < 2 ^ 32) :
    apipa_seed_xor ll s < 2 ^ 32 := by
  unfold apipa_seed_xor
  have step : ∀ (l : List Nat) (acc : Nat), acc < 2 ^ 32 →
      (∀ i ∈ l, i < 4) →
      l.foldl (fun s i => s ^^^ ((ll.getD i 0).val <<< ((i % 4) * 8))) acc
        < 2 ^ 32 := by
    intro l
    induction l with
    | nil => intro acc hacc _; simpa using hacc
    | cons x xs ih =>
      intro acc hacc hmem
      simp only [List.foldl_cons]
      apply ih
      · apply Nat.xor_lt_two_pow hacc
        have hb : (ll.getD x 0).val < 256 := (ll.getD x 0).isLt
        have hsh : (x % 4) * 8 ≤ 24 := by omega
        calc (ll.getD x 0).val <<< ((x % 4) * 8)
            = (ll.getD x 0).val * 2 ^ ((x % 4) * 8) := Nat.shiftLeft_eq _ _
          _ ≤ 255 * 2 ^ 24 := by
              apply Nat.mul_le_mul (by omega)
              exact Nat.pow_le_pow_right (by norm_num) hsh
          _ < 2 ^ 32 := by norm_num
      · intro i hi; exact hmem i (List.mem_cons_of_mem _ hi)
  apply step
  · exact hs
  · intro i hi
    have := List.mem_range.mp hi
    omega

/-- C1: for every link identity (any byte sequence, including the empty one)
and every attempt index 0..9, apipa_generate_addr returns a value between
APIPA_MIN = 169.254.1.0 and APIPA_MAX = 169.254.254.255 inclusive. -/
theorem C1_generate_addr_in_range (ll : List Byte) (attempt : Nat)
    (h : attempt < APIPA_MAX_ATTEMPTS) :
    APIPA_MIN ≤ apipa_generate_addr ll attempt ∧
      apipa_generate_addr ll attempt ≤ APIPA_MAX := by
  have hmin := APIPA_MIN_eq
  have hmax := APIPA_MAX_eq
  have hrange := apipa_range_eq
  unfold apipa_generate_addr
  have hmod :
      (apipa_seed_xor ll (apipa_seed_or ll) + attempt * APIPA_ADDR_MULTIPLIER)
          % 2 ^ 32 % (APIPA_MAX - APIPA_MIN + 1)
        < APIPA_MAX - APIPA_MIN + 1 :=
    Nat.mod_lt _ (by omega)
  omega

/-- Witness for C1 at a concrete Ethernet-style identity and attempt 0. -/
theorem C1_generate_addr_in_range_witness :
    0 < APIPA_MAX_ATTEMPTS ∧
      (APIPA_MIN ≤ apipa_generate_addr [2, 0, 0, 0, 0, 1] 0 ∧
        apipa_generate_addr [2, 0, 0, 0, 0, 1] 0 ≤ APIPA_MAX) :=
  ⟨by decide, C1_generate_addr_in_range [2, 0, 0, 0, 0, 1] 0 (by decide)⟩

/-- C6: for a fixed identity, consecutive candidates always differ; this holds
for every adjacent pair of the attempt sequence 0..9, hence for at least 9 of
them as the claim states.  The seed step between adjacent attempts is 65537,
and neither 65537 nor 65537 - 2048 (the step across a uint32 wrap, reduced by
2 ^ 32 mod 65024 = 2048) vanishes modulo the range 65024. -/
theorem C6_adjacent_candidates_differ (ll : List Byte) (a : Nat) (h : a < 9) :
    apipa_generate_addr ll a ≠ apipa_generate_addr ll (a + 1) := by
  have hlt : apipa_seed_xor ll (apipa_seed_or ll) < 2 ^ 32 := by
    apply apipa_seed_xor_lt
    rw [apipa_seed_or_eq_place]
    exact spec_seed_place_lt ll
  have hmin := APIPA_MIN_eq
  have hrange := apipa_range_eq
  unfold apipa_generate_addr
  unfold APIPA_ADDR_MULTIPLIER
  have h32 : (2 : Nat) ^ 32 = 4294967296 := by norm_num
  rw [hrange, h32]
  generalize apipa_seed_xor ll (apipa_seed_or ll) = s at hlt ⊢
  rw [h32] at hlt
  omega

/-- Witness for C6 at a concrete identity and the pair (0, 1). -/
theorem C6_adjacent_candidates_differ_witness :
    (0 : Nat) < 9 ∧
      apipa_generate_addr [2, 0, 0, 0, 0, 1] 0 ≠
        apipa_generate_addr [2, 0, 0, 0, 0, 1] 1 :=
  ⟨by decide, C6_adjacent_candidates_differ [2, 0, 0, 0, 0, 1] 0 (by decide)⟩

/-- C4 counterexample: for the 8-byte identity 01:00:00:00:00:00:00:00 at
attempt 0, the code applies the XOR step (its loop guard is i + 4 < 8, with no
test of the identity length), while the claim's reference algorithm skips the
XOR step for identities of 8 or more bytes; the produced addresses differ. -/
theorem C4_counterexample :
    apipa_generate_addr [1, 0, 0, 0, 0, 0, 0, 0] 0 ≠
      spec_generate [1, 0, 0, 0, 0, 0, 0, 0] 0 := by decide

/-- C4 amended: the generated address equals the reference algorithm with the
XOR step applied unconditionally (for every i with i < len and i + 4 < 8,
regardless of the identity's total length), rather than only for identities
shorter than 8 bytes. -/
theorem C4_generate_matches_reference (ll : List Byte) (attempt : Nat) :
    apipa_generate_addr ll attempt = spec_generate_amended ll attempt := by
  unfold apipa_generate_addr spec_generate_amended
  rw [apipa_seed_or_eq_place, apipa_seed_xor_eq_spec]

/-- Received frame: the raw bytes of one io_buffer on the device RX queue. -/
abbrev Frame : Type := List Byte

/-- Error numbers used by the source (exact values immaterial; the code
returns their negations). -/
def ENODEV : Int := 19

/-- Error number EADDRINUSE (conflict / exhaustion). -/
def EADDRINUSE : Int := 98

/-- Network-order byte layout of a host-order 32-bit address, i.e. the memory
bytes of s_addr after the htonl conversion performed by apipa. -/
def addrBytes (a : Nat) : List Byte :=
  [⟨a / 2 ^ 24 % 256, Nat.mod_lt _ (by norm_num)⟩,
    ⟨a / 2 ^ 16 % 256, Nat.mod_lt _ (by norm_num)⟩,
    ⟨a / 2 ^ 8 % 256, Nat.mod_lt _ (by norm_num)⟩,
    ⟨a % 256, Nat.mod_lt _ (by norm_num)⟩]

/-- One iteration of the RX-queue scan of apipa_check_arp_conflict (apipa.c
lines 123-164): whether this frame is reported as a conflict for the probed
address.  llh is ll_protocol->ll_header_len, lla is ll_protocol->ll_addr_len,
ab the four network-order bytes of the probed address.  Byte offsets mirror
the C struct layout: the Ethernet header's h_protocol field occupies frame
bytes 12-13 (8, 6 is htons(ETH_P_ARP) = 0x0806), the ARP header starts at
offset llh with ar_hln and ar_pln at llh + 4 and llh + 5, and the sender
protocol address at llh + 8 + ar_hln.  The length guards reproduce the C
checks against sizeof(struct ethhdr) = 14 and sizeof(struct arphdr) = 8. -/
def arp_frame_conflict (llh lla : Nat) (ab : List Byte) (f : Frame) : Bool :=
  if f.length < llh + 14 then false
  else if ¬((f.getD 12 0).val = 8 ∧ (f.getD 13 0).val = 6) then false
  else if f.length < llh + 8 then false
  else if (f.getD (llh + 4) 0).val ≠ lla then false
  else if (f.getD (llh + 5) 0).val ≠ 4 then false
  else if f.length <
      llh + 8 + (f.getD (llh + 4) 0).val + (f.getD (llh + 5) 0).val then false
  else
    (List.range 4).all (fun j =>
      f.getD (llh + 8 + (f.getD (llh + 4) 0).val + j) 0 == ab.getD j 0)

/-- apipa_check_arp_conflict (apipa.c lines 111-167): scan every queued frame;
report a conflict when any frame matches. -/
def apipa_check_arp_conflict (llh lla : Nat) (ab : List Byte)
    (rxq : List Frame) : Bool :=
  rxq.any (arp_frame_conflict llh lla ab)

/-- Keys of the settings-store collaborator, with the stored values: the three
pre-defined settings carry the host-order address written to them, a named
setting carries the caller-supplied name and value strings. -/
inductive StoreKey
  | ip (v : Nat)
  | netmask (v : Nat)
  | gateway (v : Nat)
  | named (nm vl : String)
  deriving DecidableEq, Repr

/-- Observable collaborator calls made by the core, in program order. -/
inductive Event
  | arpProbeTx (target sender : Nat)
  | arpAnnounceTx (target sender : Nat)
  | delay (ms : Nat)
  | routeInstall (addr network netmask gateway : Nat)
  | store (k : StoreKey)
  deriving DecidableEq, Repr

/-- Milliseconds waited after each probe transmission:
mdelay((APIPA_PROBE_WAIT * 1000) / TICKS_PER_SEC), documented as 200 ms. -/
def APIPA_PROBE_WAIT_MS : Nat := 200

/-- Probe loop of apipa_probe_address (apipa.c lines 192-231), iterating the
r remaining probes starting at probe index i.  tx gives the result of the
arp_tx_request of each probe (target = probed address, sender = 0.0.0.0); rx
gives the RX-queue contents at the conflict check of each probe (the
netdev_poll drains are folded into this environment function); rand the
random() value drawn for the inter-probe wait.  Returns the C status code and
the trace of transmissions and delays. -/
def apipa_probe_loop (llh lla : Nat) (address : Nat) (tx : Nat → Int)
    (rx : Nat → List Frame) (rand : Nat → Nat) :
    Nat → Nat → Int × List Event
  | _, 0 => (0, [])
  | i, r + 1 =>
    if tx i ≠ 0 then (tx i, [Event.arpProbeTx address 0])
    else if apipa_check_arp_conflict llh lla (addrBytes address) (rx i) then
      (-EADDRINUSE,
        [Event.arpProbeTx address 0, Event.delay APIPA_PROBE_WAIT_MS])
    else
      ((apipa_probe_loop llh lla address tx rx rand (i + 1) r).1,
        ([Event.arpProbeTx address 0, Event.delay APIPA_PROBE_WAIT_MS] ++
            (if r ≠ 0 then [Event.delay (1000 + rand i % 1000)] else []))
          ++ (apipa_probe_loop llh lla address tx rx rand (i + 1) r).2)

/-- apipa_probe_address (apipa.c lines 181-234): send APIPA_PROBE_NUM probes,
checking for conflicts after each. -/
def apipa_probe_address (llh lla : Nat) (address : Nat) (tx : Nat → Int)
    (rx : Nat → List Frame) (rand : Nat → Nat) : Int × List Event :=
  apipa_probe_loop llh lla address tx rx rand 0 APIPA_PROBE_NUM

/-- Modelled from the claim: a well-formed conflicting ARP frame as claim C2
defines it — correct ethertype, hardware-address length equal to the device's
link-layer address length, protocol-address length 4, long enough to contain
the sender fields, and sender protocol address byte-for-byte equal to the
candidate. -/
def spec_conflicting_frame (llh lla : Nat) (ab : List Byte) (f : Frame) :
    Prop :=
  (f.getD 12 0).val = 8 ∧ (f.getD 13 0).val = 6 ∧
    (f.getD (llh + 4) 0).val = lla ∧ (f.getD (llh + 5) 0).val = 4 ∧
    llh + 8 + lla + 4 ≤ f.length ∧
    ∀ j < 4, f.getD (llh + 8 + lla + j) 0 = ab.getD j 0

instance (llh lla : Nat) (ab : List Byte) (f : Frame) :
    Decidable (spec_conflicting_frame llh lla ab f) := by
  unfold spec_conflicting_frame; infer_instance

/-- Amended well-formedness: additionally the frame must be at least
llh + 14 bytes long (long enough for the link-layer and Ethernet headers),
matching the code's first length guard. -/
def spec_conflicting_frame_amended (llh lla : Nat) (ab : List Byte)
    (f : Frame) : Prop :=
  llh + 14 ≤ f.length ∧ spec_conflicting_frame llh lla ab f

instance (llh lla : Nat) (ab : List Byte) (f : Frame) :
    Decidable (spec_conflicting_frame_amended llh lla ab f) := by
  unfold spec_conflicting_frame_amended; infer_instance

/-- The code's per-frame conflict test coincides exactly with the amended
well-formed-conflict predicate. -/
theorem arp_frame_conflict_iff (llh lla : Nat) (ab : List Byte) (f : Frame) :
    arp_frame_conflict llh lla ab f = true ↔
      spec_conflicting_frame_amended llh lla ab f := by
  unfold arp_frame_conflict spec_conflicting_frame_amended
    spec_conflicting_frame
  by_cases h1 : f.length < llh + 14
  · rw [if_pos h1]
    simp only [Bool.false_eq_true, false_iff]
    rintro ⟨hle, _⟩
    omega
  · rw [if_neg h1]
    by_cases h2 : (f.getD 12 0).val = 8 ∧ (f.getD 13 0).val = 6
    · rw [if_neg (not_not_intro h2)]
      rw [if_neg (show ¬ f.length < llh + 8 by omega)]
      by_cases h4 : (f.getD (llh + 4) 0).val = lla
      · rw [if_neg (not_not_intro h4)]
        by_cases h5 : (f.getD (llh + 5) 0).val = 4
        · rw [if_neg (not_not_intro h5)]
          by_cases h6 : f.length <
              llh + 8 + (f.getD (llh + 4) 0).val + (f.getD (llh + 5) 0).val
          · rw [if_pos h6]
            simp only [Bool.false_eq_true, false_iff]
            rintro ⟨_, _, _, _, _, hlen, _⟩
            omega
          · rw [if_neg h6]
            obtain ⟨he1, he2⟩ := h2
            simp only [List.all_eq_true, List.mem_range, beq_iff_eq]
            constructor
            · intro hsender
              refine ⟨by omega, he1, he2, h4, h5, by omega, ?_⟩
              intro j hj
              have hs := hsender j hj
              rwa [h4] at hs
            · rintro ⟨_, _, _, _, _, _, hsender⟩
              intro j hj
              rw [h4]
              exact hsender j hj
        · rw [if_pos h5]
          simp only [Bool.false_eq_true, false_iff]
          rintro ⟨_, _, _, _, hp, _⟩
          exact h5 hp
      · rw [if_pos h4]
        simp only [Bool.false_eq_true, false_iff]
        rintro ⟨_, _, _, hl, _⟩
        exact h4 hl
    · rw [if_pos h2]
      simp only [Bool.false_eq_true, false_iff]
      rintro ⟨_, ha, hb, _⟩
      exact h2 ⟨ha, hb⟩

/-- Frames whose hardware- or protocol-address length fields do not match the
expected values are never reported as conflicts. -/
theorem arp_frame_conflict_malformed (llh lla : Nat) (ab : List Byte)
    (f : Frame)
    (h : (f.getD (llh + 4) 0).val ≠ lla ∨ (f.getD (llh + 5) 0).val ≠ 4) :
    arp_frame_conflict llh lla ab f = false := by
  rcases Bool.eq_false_or_eq_true (arp_frame_conflict llh lla ab f) with
    hb | hb
  · have hw := (arp_frame_conflict_iff llh lla ab f).mp hb
    rcases h with h | h
    · exact absurd hw.2.2.2.1 h
    · exact absurd hw.2.2.2.2.1 h
  · exact hb

/-- Result of the probe loop when every transmission succeeds: a conflict
status when some inspected queue holds a frame the code's test matches, and
success when no inspected queue does. -/
theorem apipa_probe_loop_rc (llh lla : Nat) (address : Nat) (tx : Nat → Int)
    (rx : Nat → List Frame) (rand : Nat → Nat) :
    ∀ r i, (∀ j, i ≤ j → j < i + r → tx j = 0) →
      ((∃ j, i ≤ j ∧ j < i + r ∧
          apipa_check_arp_conflict llh lla (addrBytes address) (rx j) =
            true) →
        (apipa_probe_loop llh lla address tx rx rand i r).1 = -EADDRINUSE) ∧
      ((∀ j, i ≤ j → j < i + r →
          apipa_check_arp_conflict llh lla (addrBytes address) (rx j) =
            false) →
        (apipa_probe_loop llh lla address tx rx rand i r).1 = 0) := by
  intro r
  induction r with
  | zero =>
    intro i _
    constructor
    · rintro ⟨j, hj1, hj2, _⟩
      omega
    · intro _
      rfl
  | succ r ih =>
    intro i htx
    have htxi : tx i = 0 := htx i (Nat.le_refl i) (by omega)
    have hstep : apipa_probe_loop llh lla address tx rx rand i (r + 1) =
        if tx i ≠ 0 then (tx i, [Event.arpProbeTx address 0])
        else if apipa_check_arp_conflict llh lla (addrBytes address) (rx i)
          then (-EADDRINUSE,
            [Event.arpProbeTx address 0, Event.delay APIPA_PROBE_WAIT_MS])
        else
          ((apipa_probe_loop llh lla address tx rx rand (i + 1) r).1,
            ([Event.arpProbeTx address 0,
                Event.delay APIPA_PROBE_WAIT_MS] ++
              (if r ≠ 0 then [Event.delay (1000 + rand i % 1000)] else []))
              ++ (apipa_probe_loop llh lla address tx rx rand (i + 1) r).2) :=
      rfl
    rw [hstep, if_neg (by simp [htxi])]
    have ihr := ih (i + 1) (fun j hj1 hj2 => htx j (by omega) (by omega))
    by_cases hc :
        apipa_check_arp_conflict llh lla (addrBytes address) (rx i) = true
    · rw [if_pos hc]
      exact ⟨fun _ => rfl, fun hall => absurd (hall i (Nat.le_refl i)
        (by omega)) (by simp [hc])⟩
    · have hc' : apipa_check_arp_conflict llh lla (addrBytes address) (rx i) =
          false := by
        rcases Bool.eq_false_or_eq_true
          (apipa_check_arp_conflict llh lla (addrBytes address) (rx i)) with
          hb | hb
        · exact absurd hb hc
        · exact hb
      rw [if_neg hc]
      constructor
      · rintro ⟨j, hj1, hj2, hj3⟩
        rcases Nat.eq_or_lt_of_le hj1 with rfl | hlt
        · exact absurd hj3 hc
        · exact ihr.1 ⟨j, by omega, by omega, hj3⟩
      · intro hall
        exact ihr.2 (fun j hj1 hj2 => hall j (by omega) (by omega))

/-- Every event the probe loop emits is a probe transmission (sender
0.0.0.0, target the probed address) or a delay. -/
theorem apipa_probe_loop_events (llh lla : Nat) (address : Nat)
    (tx : Nat → Int) (rx : Nat → List Frame) (rand : Nat → Nat) :
    ∀ r i, ∀ e ∈ (apipa_probe_loop llh lla address tx rx rand i r).2,
      e = Event.arpProbeTx address 0 ∨ ∃ ms, e = Event.delay ms := by
  intro r
  induction r with
  | zero =>
    intro i e he
    simp [apipa_probe_loop] at he
  | succ r ih =>
    intro i e he
    have hstep : apipa_probe_loop llh lla address tx rx rand i (r + 1) =
        if tx i ≠ 0 then (tx i, [Event.arpProbeTx address 0])
        else if apipa_check_arp_conflict llh lla (addrBytes address) (rx i)
          then (-EADDRINUSE,
            [Event.arpProbeTx address 0, Event.delay APIPA_PROBE_WAIT_MS])
        else
          ((apipa_probe_loop llh lla address tx rx rand (i + 1) r).1,
            ([Event.arpProbeTx address 0,
                Event.delay APIPA_PROBE_WAIT_MS] ++
              (if r ≠ 0 then [Event.delay (1000 + rand i % 1000)] else []))
              ++ (apipa_probe_loop llh lla address tx rx rand (i + 1) r).2) :=
      rfl
    rw [hstep] at he
    by_cases htxi : tx i ≠ 0
    · rw [if_pos htxi] at he
      simp only [List.mem_singleton] at he
      exact Or.inl he
    · rw [if_neg htxi] at he
      by_cases hc :
          apipa_check_arp_conflict llh lla (addrBytes address) (rx i) = true
      · rw [if_pos hc] at he
        simp only [List.mem_cons, List.mem_singleton, List.not_mem_nil,
          or_false] at he
        rcases he with he | he
        · exact Or.inl he
        · exact Or.inr ⟨APIPA_PROBE_WAIT_MS, he⟩
      · rw [if_neg hc] at he
        simp only [List.mem_append, List.mem_cons, List.not_mem_nil,
          or_false] at he
        rcases he with ((he | he) | he) | he
        · exact Or.inl he
        · exact Or.inr ⟨APIPA_PROBE_WAIT_MS, he⟩
        · by_cases hr : r ≠ 0
          · rw [if_pos hr] at he
            simp only [List.mem_singleton] at he
            exact Or.inr ⟨1000 + rand i % 1000, he⟩
          · rw [if_neg hr] at he
            simp at he
        · exact ih (i + 1) e he

theorem apipa_check_of_mem (llh lla : Nat) (ab : List Byte) (q : List Frame)
    (f : Frame) (hf : f ∈ q)
    (hw : spec_conflicting_frame_amended llh lla ab f) :
    apipa_check_arp_conflict llh lla ab q = true := by
  unfold apipa_check_arp_conflict
  rw [List.any_eq_true]
  exact ⟨f, hf, (arp_frame_conflict_iff llh lla ab f).mpr hw⟩

theorem apipa_check_of_none (llh lla : Nat) (ab : List Byte) (q : List Frame)
    (hnone : ∀ f ∈ q, ¬ spec_conflicting_frame_amended llh lla ab f) :
    apipa_check_arp_conflict llh lla ab q = false := by
  rcases Bool.eq_false_or_eq_true (apipa_check_arp_conflict llh lla ab q) with
    hb | hb
  · unfold apipa_check_arp_conflict at hb
    rw [List.any_eq_true] at hb
    obtain ⟨f, hf, hc⟩ := hb
    exact absurd ((arp_frame_conflict_iff llh lla ab f).mp hc) (hnone f hf)
  · exact hb

/-- Frame for the C2 counterexample: a device whose link-layer protocol has
header length 20 and address length 1.  The frame is 33 bytes, exactly
enough to contain the sender fields (20 + 8 + 1 + 4), which is below the
code's first length guard of ll_header_len + 14 = 34 bytes.  Ethertype bytes
12-13 are 08 06, ar_hln (offset 24) is 1, ar_pln (offset 25) is 4, and the
sender protocol address (offsets 29-32) is 169.254.1.0. -/
def c2ShortFrame : Frame :=
  [0, 0, 0, 0, 0, 0, 0, 0, 0, 0, 0, 0, 8, 6, 0, 0, 0, 0, 0, 0,
    0, 1, 8, 0, 1, 4, 0, 1, 0, 169, 254, 1, 0]

/-- C2 counterexample: the claim as stated is false on the code.  This frame
satisfies every condition of the claim's well-formed-conflict definition
(correct ethertype, hardware-address length equal to the device's link-layer
address length 1, protocol-address length 4, long enough to contain the
sender fields) and its sender protocol address equals the probed candidate,
and it sits in the RX queue at every probe with every transmission
succeeding; yet the probe ignores it (the code's first guard also demands
ll_header_len + 14 bytes) and returns 0 (Clear) instead of the conflict
status. -/
theorem C2_counterexample :
    spec_conflicting_frame 20 1 (addrBytes APIPA_MIN) c2ShortFrame ∧
      c2ShortFrame ∈ [c2ShortFrame] ∧
      (apipa_probe_address 20 1 APIPA_MIN (fun _ => 0)
          (fun _ => [c2ShortFrame]) (fun _ => 0)).1 = 0 ∧
      (0 : Int) ≠ -EADDRINUSE := by
  refine ⟨by decide, by decide, by decide, by decide⟩

/-- C2 amended: well-formedness additionally requires the frame to be at
least ll_header_len + 14 bytes long.  With every probe transmission
succeeding: if some probe's inspected RX queue holds such a conflicting
frame the probe returns the conflict status -EADDRINUSE; frames with
mismatched hardware- or protocol-address length fields are never treated as
conflicts; and if no inspected queue ever holds a conflicting well-formed
frame across all 3 probes the probe returns 0 (Clear). -/
theorem C2_probe_conflict_detection (llh lla : Nat) (address : Nat)
    (tx : Nat → Int) (rx : Nat → List Frame) (rand : Nat → Nat)
    (htx : ∀ j, j < APIPA_PROBE_NUM → tx j = 0) :
    ((∃ i, i < APIPA_PROBE_NUM ∧ ∃ f ∈ rx i,
        spec_conflicting_frame_amended llh lla (addrBytes address) f) →
      (apipa_probe_address llh lla address tx rx rand).1 = -EADDRINUSE) ∧
      ((∀ i, i < APIPA_PROBE_NUM → ∀ f ∈ rx i,
          ¬ spec_conflicting_frame_amended llh lla (addrBytes address) f) →
        (apipa_probe_address llh lla address tx rx rand).1 = 0) ∧
      (∀ f : Frame,
        (f.getD (llh + 4) 0).val ≠ lla ∨ (f.getD (llh + 5) 0).val ≠ 4 →
        arp_frame_conflict llh lla (addrBytes address) f = false) := by
  have hrc := apipa_probe_loop_rc llh lla address tx rx rand
    APIPA_PROBE_NUM 0 (fun j hj1 hj2 => htx j (by omega))
  refine ⟨?_, ?_, ?_⟩
  · rintro ⟨i, hi, f, hf, hw⟩
    exact hrc.1 ⟨i, by omega, by omega,
      apipa_check_of_mem llh lla (addrBytes address) (rx i) f hf hw⟩
  · intro hnone
    exact hrc.2 (fun j hj1 hj2 =>
      apipa_check_of_none llh lla (addrBytes address) (rx j)
        (hnone j (by omega)))
  · intro f hf
    exact arp_frame_conflict_malformed llh lla (addrBytes address) f hf

/-- Full 42-byte Ethernet gratuitous ARP frame from a conflicting host whose
sender protocol address is 169.254.1.0 (the probed candidate below). -/
def c2Frame : Frame :=
  [255, 255, 255, 255, 255, 255, 16, 32, 48, 64, 80, 96, 8, 6,
    0, 1, 8, 0, 6, 4, 0, 1,
    16, 32, 48, 64, 80, 96, 169, 254, 1, 0,
    0, 0, 0, 0, 0, 0, 169, 254, 1, 0]

/-- Witness for C2: on an Ethernet-shaped device (header 14, address length
6) probing APIPA_MIN with all transmissions succeeding, a queued conflicting
gratuitous ARP frame makes the probe return the conflict status. -/
theorem C2_probe_conflict_detection_witness :
    (apipa_probe_address 14 6 APIPA_MIN (fun _ => 0)
        (fun _ => [c2Frame]) (fun _ => 0)).1 = -EADDRINUSE :=
  (C2_probe_conflict_detection 14 6 APIPA_MIN (fun _ => 0)
      (fun _ => [c2Frame]) (fun _ => 0) (by decide)).1
    ⟨0, by decide, c2Frame, by decide, by decide⟩

/-- Environment of one apipa run: the outcomes and inputs supplied by the
external collaborators (device state, packet substrate, route table,
settings store, randomness).  probeTx, rxAt and probeRand are indexed by
attempt number then probe number.  hasLL models ll_protocol and ll_addr both
being present; isOpen and openRc the netdev_is_open / netdev_open outcomes;
linkRc the device's link_rc, with netdev_link_ok holding exactly when it is
0 (the iPXE link-state convention). -/
structure ApipaEnv where
  hasLL : Bool
  llAddr : List Byte
  llHdrLen : Nat
  isOpen : Bool
  openRc : Int
  linkRc : Int
  jitterRand : Nat
  probeTx : Nat → Nat → Int
  rxAt : Nat → Nat → List Frame
  probeRand : Nat → Nat → Nat
  installRc : Int
  announceTx : Nat → Int
  storeRc : StoreKey → Int
  parseRc : String → Int

/-- Announcement loop of apipa (apipa.c lines 402-419), unrolled for its
fixed count of 2: each iteration waits 2000 ms (except before the first),
then transmits a gratuitous ARP (sender = target = claimed address); a
failed transmission returns its code at once.  Events record each
arp_tx_request call. -/
def apipa_announce (txa : Nat → Int) (address : Nat) : Int × List Event :=
  if txa 0 ≠ 0 then (txa 0, [Event.arpAnnounceTx address address])
  else if txa 1 ≠ 0 then
    (txa 1, [Event.arpAnnounceTx address address, Event.delay 2000,
      Event.arpAnnounceTx address address])
  else
    (0, [Event.arpAnnounceTx address address, Event.delay 2000,
      Event.arpAnnounceTx address address])

/-- Custom-settings loop of apipa_store_settings (apipa.c lines 287-304):
for each (name, value) pair in order, parse the setting name (a parse
failure returns its code before any store call for that pair), then store;
the first failing store returns its code, dropping the remaining pairs. -/
def apipa_store_pairs (storeRc : StoreKey → Int) (parseRc : String → Int) :
    List (String × String) → Int × List Event
  | [] => (0, [])
  | (nm, vl) :: rest =>
    if parseRc nm ≠ 0 then (parseRc nm, [])
    else if storeRc (StoreKey.named nm vl) ≠ 0 then
      (storeRc (StoreKey.named nm vl), [Event.store (StoreKey.named nm vl)])
    else
      ((apipa_store_pairs storeRc parseRc rest).1,
        Event.store (StoreKey.named nm vl) ::
          (apipa_store_pairs storeRc parseRc rest).2)

/-- apipa_store_settings (apipa.c lines 250-307): store the address, then
the netmask, then the gateway only if it is non-zero, then the caller pairs;
each failing store returns its code immediately. -/
def apipa_store_settings (storeRc : StoreKey → Int) (parseRc : String → Int)
    (address netmask gateway : Nat) (args : List (String × String)) :
    Int × List Event :=
  if storeRc (StoreKey.ip address) ≠ 0 then
    (storeRc (StoreKey.ip address), [Event.store (StoreKey.ip address)])
  else if storeRc (StoreKey.netmask netmask) ≠ 0 then
    (storeRc (StoreKey.netmask netmask),
      [Event.store (StoreKey.ip address),
        Event.store (StoreKey.netmask netmask)])
  else if gateway ≠ 0 then
    if storeRc (StoreKey.gateway gateway) ≠ 0 then
      (storeRc (StoreKey.gateway gateway),
        [Event.store (StoreKey.ip address),
          Event.store (StoreKey.netmask netmask),
          Event.store (StoreKey.gateway gateway)])
    else
      ((apipa_store_pairs storeRc parseRc args).1,
        [Event.store (StoreKey.ip address),
          Event.store (StoreKey.netmask netmask),
          Event.store (StoreKey.gateway gateway)] ++
          (apipa_store_pairs storeRc parseRc args).2)
  else
    ((apipa_store_pairs storeRc parseRc args).1,
      [Event.store (StoreKey.ip address),
        Event.store (StoreKey.netmask netmask)] ++
        (apipa_store_pairs storeRc parseRc args).2)

/-- One candidate attempt of the apipa loop body (apipa.c lines 370-374):
generate the candidate for attempt k and probe it with that attempt's
environment slice. -/
def apipa_attempt (env : ApipaEnv) (k : Nat) : Int × List Event :=
  apipa_probe_address env.llHdrLen env.llAddr.length
    (apipa_generate_addr env.llAddr k) (env.probeTx k) (env.rxAt k)
    (env.probeRand k)

/-- Attempt loop of apipa (apipa.c lines 368-383), iterating the r remaining
attempts starting at attempt k: stop at the first attempt whose probe
returns 0, reporting its index; any non-zero probe status (conflict or
transmit failure) advances to the next attempt. -/
def apipa_loop (env : ApipaEnv) : Nat → Nat → Option Nat × List Event
  | _, 0 => (none, [])
  | k, r + 1 =>
    if (apipa_attempt env k).1 = 0 then (some k, (apipa_attempt env k).2)
    else
      ((apipa_loop env (k + 1) r).1,
        (apipa_attempt env k).2 ++ (apipa_loop env (k + 1) r).2)

/-- Tail of apipa after attempt k's probe cleared (apipa.c lines 391-435):
install the route (address, network 169.254.0.0, netmask /16, gateway),
then announce, then store the settings; the first failure returns its code,
with no rollback of anything already done. -/
def apipa_finalize (env : ApipaEnv) (gateway : Nat)
    (args : List (String × String)) (k : Nat) : Int × List Event :=
  if env.installRc ≠ 0 then
    (env.installRc,
      [Event.routeInstall (apipa_generate_addr env.llAddr k) APIPA_BASE
        APIPA_NETMASK gateway])
  else if (apipa_announce env.announceTx
      (apipa_generate_addr env.llAddr k)).1 ≠ 0 then
    ((apipa_announce env.announceTx (apipa_generate_addr env.llAddr k)).1,
      Event.routeInstall (apipa_generate_addr env.llAddr k) APIPA_BASE
          APIPA_NETMASK gateway ::
        (apipa_announce env.announceTx (apipa_generate_addr env.llAddr k)).2)
  else
    ((apipa_store_settings env.storeRc env.parseRc
        (apipa_generate_addr env.llAddr k) APIPA_NETMASK gateway args).1,
      Event.routeInstall (apipa_generate_addr env.llAddr k) APIPA_BASE
          APIPA_NETMASK gateway ::
        ((apipa_announce env.announceTx
            (apipa_generate_addr env.llAddr k)).2 ++
          (apipa_store_settings env.storeRc env.parseRc
            (apipa_generate_addr env.llAddr k) APIPA_NETMASK gateway
            args).2))

/-- apipa (apipa.c lines 320-436): check the device preconditions, wait the
initial random jitter, run the attempt loop, and on a cleared attempt
install, announce and store.  gw models the struct in_addr pointer argument
(none = NULL); args the argc/argv setting pairs. -/
def apipa (env : ApipaEnv) (gw : Option Nat)
    (args : List (String × String)) : Int × List Event :=
  if env.hasLL = false then (-ENODEV, [])
  else if env.isOpen = false ∧ env.openRc ≠ 0 then (env.openRc, [])
  else if env.linkRc ≠ 0 then (env.linkRc, [])
  else
    match apipa_loop env 0 APIPA_MAX_ATTEMPTS with
    | (none, pevs) =>
      (-EADDRINUSE, Event.delay (env.jitterRand % 1000) :: pevs)
    | (some k, pevs) =>
      ((apipa_finalize env (gw.getD 0) args k).1,
        (Event.delay (env.jitterRand % 1000) :: pevs) ++
          (apipa_finalize env (gw.getD 0) args k).2)

theorem apipa_loop_none (env : ApipaEnv) :
    ∀ r k, (∀ j, k ≤ j → j < k + r → (apipa_attempt env j).1 ≠ 0) →
      (apipa_loop env k r).1 = none := by
  intro r
  induction r with
  | zero => intro k _; rfl
  | succ r ih =>
    intro k hfail
    have hstep : apipa_loop env k (r + 1) =
        if (apipa_attempt env k).1 = 0 then
          (some k, (apipa_attempt env k).2)
        else
          ((apipa_loop env (k + 1) r).1,
            (apipa_attempt env k).2 ++ (apipa_loop env (k + 1) r).2) := rfl
    rw [hstep, if_neg (hfail k (Nat.le_refl k) (by omega))]
    exact ih (k + 1) (fun j hj1 hj2 => hfail j (by omega) (by omega))

theorem apipa_loop_first_clear (env : ApipaEnv) :
    ∀ r k0 k, k0 ≤ k → k < k0 + r →
      (∀ j, k0 ≤ j → j < k → (apipa_attempt env j).1 ≠ 0) →
      (apipa_attempt env k).1 = 0 →
      (apipa_loop env k0 r).1 = some k := by
  intro r
  induction r with
  | zero => intro k0 k h1 h2; omega
  | succ r ih =>
    intro k0 k h1 h2 hbefore hclear
    have hstep : apipa_loop env k0 (r + 1) =
        if (apipa_attempt env k0).1 = 0 then
          (some k0, (apipa_attempt env k0).2)
        else
          ((apipa_loop env (k0 + 1) r).1,
            (apipa_attempt env k0).2 ++ (apipa_loop env (k0 + 1) r).2) := rfl
    rcases Nat.eq_or_lt_of_le h1 with rfl | hlt
    · rw [hstep, if_pos hclear]
    · rw [hstep, if_neg (hbefore k0 (Nat.le_refl k0) hlt)]
      exact ih (k0 + 1) k (by omega) (by omega)
        (fun j hj1 hj2 => hbefore j (by omega) hj2) hclear

theorem apipa_loop_events (env : ApipaEnv) :
    ∀ r k, ∀ e ∈ (apipa_loop env k r).2,
      (∃ t, e = Event.arpProbeTx t 0) ∨ ∃ ms, e = Event.delay ms := by
  intro r
  induction r with
  | zero =>
    intro k e he
    simp [apipa_loop] at he
  | succ r ih =>
    intro k e he
    have hstep : apipa_loop env k (r + 1) =
        if (apipa_attempt env k).1 = 0 then
          (some k, (apipa_attempt env k).2)
        else
          ((apipa_loop env (k + 1) r).1,
            (apipa_attempt env k).2 ++ (apipa_loop env (k + 1) r).2) := rfl
    rw [hstep] at he
    have hattempt : ∀ e ∈ (apipa_attempt env k).2,
        (∃ t, e = Event.arpProbeTx t 0) ∨ ∃ ms, e = Event.delay ms := by
      intro e2 he2
      have := apipa_probe_loop_events env.llHdrLen env.llAddr.length
        (apipa_generate_addr env.llAddr k) (env.probeTx k) (env.rxAt k)
        (env.probeRand k) APIPA_PROBE_NUM 0 e2 he2
      rcases this with h | h
      · exact Or.inl ⟨apipa_generate_addr env.llAddr k, h⟩
      · exact Or.inr h
    by_cases hc : (apipa_attempt env k).1 = 0
    · rw [if_pos hc] at he
      exact hattempt e he
    · rw [if_neg hc] at he
      rcases List.mem_append.mp he with he | he
      · exact hattempt e he
      · exact ih (k + 1) e he

theorem apipa_precondition_reduce (env : ApipaEnv) (gw : Option Nat)
    (args : List (String × String)) (hll : env.hasLL = true)
    (hopen : env.isOpen = true ∨ env.openRc = 0) (hlink : env.linkRc = 0) :
    apipa env gw args =
      match apipa_loop env 0 APIPA_MAX_ATTEMPTS with
      | (none, pevs) =>
        (-EADDRINUSE, Event.delay (env.jitterRand % 1000) :: pevs)
      | (some k, pevs) =>
        ((apipa_finalize env (gw.getD 0) args k).1,
          (Event.delay (env.jitterRand % 1000) :: pevs) ++
            (apipa_finalize env (gw.getD 0) args k).2) := by
  unfold apipa
  rw [if_neg (by simp [hll]), if_neg (by rcases hopen with h | h <;> simp [h]),
    if_neg (by simp [hlink])]

theorem apipa_announce_events (txa : Nat → Int) (address : Nat) :
    ∀ e ∈ (apipa_announce txa address).2,
      e = Event.arpAnnounceTx address address ∨ e = Event.delay 2000 := by
  intro e he
  unfold apipa_announce at he
  by_cases h0 : txa 0 ≠ 0
  · rw [if_pos h0] at he
    simp only [List.mem_singleton] at he
    exact Or.inl he
  · rw [if_neg h0] at he
    by_cases h1 : txa 1 ≠ 0
    · rw [if_pos h1] at he
      simp only [List.mem_cons, List.not_mem_nil, or_false] at he
      rcases he with he | he | he
      · exact Or.inl he
      · exact Or.inr he
      · exact Or.inl he
    · rw [if_neg h1] at he
      simp only [List.mem_cons, List.not_mem_nil, or_false] at he
      rcases he with he | he | he
      · exact Or.inl he
      · exact Or.inr he
      · exact Or.inl he

theorem apipa_store_pairs_events (storeRc : StoreKey → Int)
    (parseRc : String → Int) :
    ∀ args e, e ∈ (apipa_store_pairs storeRc parseRc args).2 →
      ∃ nm vl, e = Event.store (StoreKey.named nm vl) := by
  intro args
  induction args with
  | nil =>
    intro e he
    simp [apipa_store_pairs] at he
  | cons p rest ih =>
    intro e he
    obtain ⟨nm, vl⟩ := p
    have hstep : apipa_store_pairs storeRc parseRc ((nm, vl) :: rest) =
        if parseRc nm ≠ 0 then (parseRc nm, [])
        else if storeRc (StoreKey.named nm vl) ≠ 0 then
          (storeRc (StoreKey.named nm vl),
            [Event.store (StoreKey.named nm vl)])
        else
          ((apipa_store_pairs storeRc parseRc rest).1,
            Event.store (StoreKey.named nm vl) ::
              (apipa_store_pairs storeRc parseRc rest).2) := rfl
    rw [hstep] at he
    by_cases hp : parseRc nm ≠ 0
    · rw [if_pos hp] at he
      simp at he
    · rw [if_neg hp] at he
      by_cases hs : storeRc (StoreKey.named nm vl) ≠ 0
      · rw [if_pos hs] at he
        simp only [List.mem_singleton] at he
        exact ⟨nm, vl, he⟩
      · rw [if_neg hs] at he
        rcases List.mem_cons.mp he with he | he
        · exact ⟨nm, vl, he⟩
        · exact ih e he

theorem apipa_store_settings_events (storeRc : StoreKey → Int)
    (parseRc : String → Int) (address netmask gateway : Nat)
    (args : List (String × String)) :
    ∀ e ∈ (apipa_store_settings storeRc parseRc address netmask gateway
        args).2,
      e = Event.store (StoreKey.ip address) ∨
        e = Event.store (StoreKey.netmask netmask) ∨
        (e = Event.store (StoreKey.gateway gateway) ∧ gateway ≠ 0) ∨
        ∃ nm vl, e = Event.store (StoreKey.named nm vl) := by
  intro e he
  unfold apipa_store_settings at he
  by_cases h1 : storeRc (StoreKey.ip address) ≠ 0
  · rw [if_pos h1] at he
    simp only [List.mem_singleton] at he
    exact Or.inl he
  · rw [if_neg h1] at he
    by_cases h2 : storeRc (StoreKey.netmask netmask) ≠ 0
    · rw [if_pos h2] at he
      simp only [List.mem_cons, List.not_mem_nil, or_false] at he
      rcases he with he | he
      · exact Or.inl he
      · exact Or.inr (Or.inl he)
    · rw [if_neg h2] at he
      by_cases hg : gateway ≠ 0
      · rw [if_pos hg] at he
        by_cases h3 : storeRc (StoreKey.gateway gateway) ≠ 0
        · rw [if_pos h3] at he
          simp only [List.mem_cons, List.not_mem_nil, or_false] at he
          rcases he with he | he | he
          · exact Or.inl he
          · exact Or.inr (Or.inl he)
          · exact Or.inr (Or.inr (Or.inl ⟨he, hg⟩))
        · rw [if_neg h3] at he
          simp only [List.mem_append, List.mem_cons, List.not_mem_nil,
            or_false] at he
          rcases he with (he | he | he) | he
          · exact Or.inl he
          · exact Or.inr (Or.inl he)
          · exact Or.inr (Or.inr (Or.inl ⟨he, hg⟩))
          · exact Or.inr (Or.inr (Or.inr
              (apipa_store_pairs_events storeRc parseRc args e he)))
      · rw [if_neg hg] at he
        simp only [List.mem_append, List.mem_cons, List.not_mem_nil,
          or_false] at he
        rcases he with (he | he) | he
        · exact Or.inl he
        · exact Or.inr (Or.inl he)
        · exact Or.inr (Or.inr (Or.inr
            (apipa_store_pairs_events storeRc parseRc args e he)))

theorem apipa_finalize_install_mem (env : ApipaEnv) (gateway : Nat)
    (args : List (String × String)) (k : Nat) :
    Event.routeInstall (apipa_generate_addr env.llAddr k) APIPA_BASE
        APIPA_NETMASK gateway ∈ (apipa_finalize env gateway args k).2 := by
  unfold apipa_finalize
  split_ifs <;> simp

theorem apipa_finalize_events (env : ApipaEnv) (gateway : Nat)
    (args : List (String × String)) (k : Nat) :
    ∀ e ∈ (apipa_finalize env gateway args k).2,
      e = Event.routeInstall (apipa_generate_addr env.llAddr k) APIPA_BASE
          APIPA_NETMASK gateway ∨
        e = Event.arpAnnounceTx (apipa_generate_addr env.llAddr k)
            (apipa_generate_addr env.llAddr k) ∨
        e = Event.delay 2000 ∨
        e = Event.store (StoreKey.ip (apipa_generate_addr env.llAddr k)) ∨
        e = Event.store (StoreKey.netmask APIPA_NETMASK) ∨
        (e = Event.store (StoreKey.gateway gateway) ∧ gateway ≠ 0) ∨
        ∃ nm vl, e = Event.store (StoreKey.named nm vl) := by
  intro e he
  unfold apipa_finalize at he
  by_cases h1 : env.installRc ≠ 0
  · rw [if_pos h1] at he
    simp only [List.mem_singleton] at he
    exact Or.inl he
  · rw [if_neg h1] at he
    by_cases h2 : (apipa_announce env.announceTx
        (apipa_generate_addr env.llAddr k)).1 ≠ 0
    · rw [if_pos h2] at he
      rcases List.mem_cons.mp he with he | he
      · exact Or.inl he
      · rcases apipa_announce_events env.announceTx
          (apipa_generate_addr env.llAddr k) e he with h | h
        · exact Or.inr (Or.inl h)
        · exact Or.inr (Or.inr (Or.inl h))
    · rw [if_neg h2] at he
      rcases List.mem_cons.mp he with he | he
      · exact Or.inl he
      · rcases List.mem_append.mp he with he | he
        · rcases apipa_announce_events env.announceTx
            (apipa_generate_addr env.llAddr k) e he with h | h
          · exact Or.inr (Or.inl h)
          · exact Or.inr (Or.inr (Or.inl h))
        · rcases apipa_store_settings_events env.storeRc env.parseRc
            (apipa_generate_addr env.llAddr k) APIPA_NETMASK gateway args
            e he with h | h | h | h
          · exact Or.inr (Or.inr (Or.inr (Or.inl h)))
          · exact Or.inr (Or.inr (Or.inr (Or.inr (Or.inl h))))
          · exact Or.inr (Or.inr (Or.inr (Or.inr (Or.inr (Or.inl h)))))
          · exact Or.inr (Or.inr (Or.inr (Or.inr (Or.inr (Or.inr h)))))

/-- C3: when every one of the 10 attempts ends without a clear probe (each
probe returns the conflict status or a transmit error, i.e. a non-zero
status), apipa returns -EADDRINUSE and its trace contains no route
installation, no announcement transmission and no settings-store call. -/
theorem C3_exhaustion_no_side_effects (env : ApipaEnv) (gw : Option Nat)
    (args : List (String × String)) (hll : env.hasLL = true)
    (hopen : env.isOpen = true ∨ env.openRc = 0) (hlink : env.linkRc = 0)
    (hfail : ∀ k, k < APIPA_MAX_ATTEMPTS → (apipa_attempt env k).1 ≠ 0) :
    (apipa env gw args).1 = -EADDRINUSE ∧
      ∀ e ∈ (apipa env gw args).2,
        (∀ a n m g, e ≠ Event.routeInstall a n m g) ∧
          (∀ t s, e ≠ Event.arpAnnounceTx t s) ∧
          ∀ key, e ≠ Event.store key := by
  have hnone := apipa_loop_none env APIPA_MAX_ATTEMPTS 0
    (fun j hj1 hj2 => hfail j (by omega))
  rcases hE : apipa_loop env 0 APIPA_MAX_ATTEMPTS with ⟨o, pevs⟩
  rw [hE] at hnone
  simp only at hnone
  subst hnone
  have happ : apipa env gw args =
      (-EADDRINUSE, Event.delay (env.jitterRand % 1000) :: pevs) := by
    rw [apipa_precondition_reduce env gw args hll hopen hlink, hE]
  rw [happ]
  have hloopev : ∀ e2 ∈ pevs,
      (∃ t, e2 = Event.arpProbeTx t 0) ∨ ∃ ms, e2 = Event.delay ms := by
    intro e2 he2
    have hl := apipa_loop_events env APIPA_MAX_ATTEMPTS 0 e2
    rw [hE] at hl
    exact hl he2
  refine ⟨rfl, ?_⟩
  intro e he
  simp only [List.mem_cons] at he
  rcases he with rfl | he
  · exact ⟨fun a n m g => by simp, fun t s => by simp, fun key => by simp⟩
  · rcases hloopev e he with ⟨t, rfl⟩ | ⟨ms, rfl⟩
    · exact ⟨fun a n m g => by simp, fun t s => by simp, fun key => by simp⟩
    · exact ⟨fun a n m g => by simp, fun t s => by simp, fun key => by simp⟩

/-- Environment for the C3 witness: healthy Ethernet device whose every
probe transmission fails, so every attempt ends with a transmit error. -/
def c3Env : ApipaEnv :=
  ⟨true, [2, 0, 0, 0, 0, 1], 14, true, 0, 0, 0, fun _ _ => -5,
    fun _ _ => [], fun _ _ => 0, 0, fun _ => 0, fun _ => 0, fun _ => 0⟩

/-- Witness for C3 at c3Env. -/
theorem C3_exhaustion_no_side_effects_witness :
    (apipa c3Env none []).1 = -EADDRINUSE ∧
      ∀ e ∈ (apipa c3Env none []).2,
        (∀ a n m g, e ≠ Event.routeInstall a n m g) ∧
          (∀ t s, e ≠ Event.arpAnnounceTx t s) ∧
          ∀ key, e ≠ Event.store key :=
  C3_exhaustion_no_side_effects c3Env none [] rfl (Or.inl rfl) rfl
    (by decide)

/-- C9: each failed precondition returns its error with an empty trace —
no candidate generated, no packet transmitted, no probing: missing
link-layer address gives -ENODEV; a device that is not open and fails to
open gives the open error; a down link (link_rc non-zero) gives link_rc. -/
theorem C9_preconditions_abort_early (env : ApipaEnv) (gw : Option Nat)
    (args : List (String × String)) :
    (env.hasLL = false → apipa env gw args = (-ENODEV, [])) ∧
      (env.hasLL = true → env.isOpen = false → env.openRc ≠ 0 →
        apipa env gw args = (env.openRc, [])) ∧
      (env.hasLL = true → (env.isOpen = true ∨ env.openRc = 0) →
        env.linkRc ≠ 0 → apipa env gw args = (env.linkRc, [])) := by
  refine ⟨?_, ?_, ?_⟩
  · intro h
    unfold apipa
    rw [if_pos h]
  · intro h1 h2 h3
    unfold apipa
    rw [if_neg (by simp [h1]), if_pos ⟨h2, h3⟩]
  · intro h1 h2 h3
    unfold apipa
    rw [if_neg (by simp [h1]),
      if_neg (by rcases h2 with h | h <;> simp [h]), if_pos h3]

/-- Environment for the C9 witness: device with no link-layer address. -/
def c9Env : ApipaEnv :=
  ⟨false, [], 0, false, 0, 0, 0, fun _ _ => 0, fun _ _ => [],
    fun _ _ => 0, 0, fun _ => 0, fun _ => 0, fun _ => 0⟩

/-- Witness for C9 at c9Env. -/
theorem C9_preconditions_abort_early_witness :
    apipa c9Env none [] = (-ENODEV, []) :=
  (C9_preconditions_abort_early c9Env none []).1 rfl

/-- C7: the announcer (invoked by apipa right after route installation)
sends exactly 2 gratuitous ARP requests with sender and target both the
claimed address, with no wait before the first and a 2000 ms wait before the
second; a failing transmission returns its error at once, and a failure of
the first announcement means the second is never attempted. -/
theorem C7_announcer (txa : Nat → Int) (address : Nat) :
    (txa 0 = 0 → txa 1 = 0 →
      apipa_announce txa address =
        (0, [Event.arpAnnounceTx address address, Event.delay 2000,
          Event.arpAnnounceTx address address])) ∧
      (txa 0 ≠ 0 →
        apipa_announce txa address =
          (txa 0, [Event.arpAnnounceTx address address])) ∧
      (txa 0 = 0 → txa 1 ≠ 0 →
        apipa_announce txa address =
          (txa 1, [Event.arpAnnounceTx address address, Event.delay 2000,
            Event.arpAnnounceTx address address])) := by
  refine ⟨?_, ?_, ?_⟩
  · intro h0 h1
    unfold apipa_announce
    rw [if_neg (by simp [h0]), if_neg (by simp [h1])]
  · intro h0
    unfold apipa_announce
    rw [if_pos h0]
  · intro h0 h1
    unfold apipa_announce
    rw [if_neg (by simp [h0]), if_pos h1]

/-- Witness for C7 with both transmissions succeeding. -/
theorem C7_announcer_witness :
    apipa_announce (fun _ => 0) APIPA_MIN =
      (0, [Event.arpAnnounceTx APIPA_MIN APIPA_MIN, Event.delay 2000,
        Event.arpAnnounceTx APIPA_MIN APIPA_MIN]) :=
  (C7_announcer (fun _ => 0) APIPA_MIN).1 rfl rfl

/-- Shape of every event apipa can emit: probe transmissions (sender
0.0.0.0), delays, one route installation with network 169.254.0.0, netmask
/16 and the effective gateway, gratuitous announcements, and the settings
stores; a gateway store happens only when the effective gateway is
non-zero. -/
theorem apipa_events (env : ApipaEnv) (gw : Option Nat)
    (args : List (String × String)) :
    ∀ e ∈ (apipa env gw args).2,
      (∃ t, e = Event.arpProbeTx t 0) ∨ (∃ ms, e = Event.delay ms) ∨
        (∃ a, e = Event.routeInstall a APIPA_BASE APIPA_NETMASK
          (gw.getD 0)) ∨
        (∃ a, e = Event.arpAnnounceTx a a) ∨
        (∃ a, e = Event.store (StoreKey.ip a)) ∨
        e = Event.store (StoreKey.netmask APIPA_NETMASK) ∨
        (e = Event.store (StoreKey.gateway (gw.getD 0)) ∧ gw.getD 0 ≠ 0) ∨
        ∃ nm vl, e = Event.store (StoreKey.named nm vl) := by
  intro e he
  unfold apipa at he
  by_cases h1 : env.hasLL = false
  · rw [if_pos h1] at he
    simp at he
  · rw [if_neg h1] at he
    by_cases h2 : env.isOpen = false ∧ env.openRc ≠ 0
    · rw [if_pos h2] at he
      simp at he
    · rw [if_neg h2] at he
      by_cases h3 : env.linkRc ≠ 0
      · rw [if_pos h3] at he
        simp at he
      · rw [if_neg h3] at he
        rcases hE : apipa_loop env 0 APIPA_MAX_ATTEMPTS with ⟨o, pevs⟩
        rw [hE] at he
        have hloopev : ∀ e2 ∈ pevs,
            (∃ t, e2 = Event.arpProbeTx t 0) ∨
              ∃ ms, e2 = Event.delay ms := by
          intro e2 he2
          have := apipa_loop_events env APIPA_MAX_ATTEMPTS 0 e2
          rw [hE] at this
          exact this he2
        cases o with
        | none =>
          simp only [List.mem_cons] at he
          rcases he with rfl | he
          · exact Or.inr (Or.inl ⟨env.jitterRand % 1000, rfl⟩)
          · rcases hloopev e he with ⟨t, rfl⟩ | ⟨ms, rfl⟩
            · exact Or.inl ⟨t, rfl⟩
            · exact Or.inr (Or.inl ⟨ms, rfl⟩)
        | some k =>
          simp only [List.cons_append, List.mem_cons,
            List.mem_append] at he
          rcases he with rfl | he | he
          · exact Or.inr (Or.inl ⟨env.jitterRand % 1000, rfl⟩)
          · rcases hloopev e he with ⟨t, rfl⟩ | ⟨ms, rfl⟩
            · exact Or.inl ⟨t, rfl⟩
            · exact Or.inr (Or.inl ⟨ms, rfl⟩)
          · rcases apipa_finalize_events env (gw.getD 0) args k e he with
              h | h | h | h | h | h | h
            · exact Or.inr (Or.inr (Or.inl
                ⟨apipa_generate_addr env.llAddr k, h⟩))
            · exact Or.inr (Or.inr (Or.inr (Or.inl
                ⟨apipa_generate_addr env.llAddr k, h⟩)))
            · exact Or.inr (Or.inl ⟨2000, h⟩)
            · exact Or.inr (Or.inr (Or.inr (Or.inr (Or.inl
                ⟨apipa_generate_addr env.llAddr k, h⟩))))
            · exact Or.inr (Or.inr (Or.inr (Or.inr (Or.inr (Or.inl h)))))
            · exact Or.inr (Or.inr (Or.inr (Or.inr (Or.inr (Or.inr
                (Or.inl h))))))
            · exact Or.inr (Or.inr (Or.inr (Or.inr (Or.inr (Or.inr
                (Or.inr h))))))

/-- C10: supplying an explicit gateway of 0.0.0.0 is observationally
identical to supplying no gateway at all — the two runs of apipa return the
same status and the same trace (hence the same route-installation
arguments), and no gateway setting is ever stored in either run.  (The
display output elides the gateway in both runs for the same reason: the code
only consults the merged gateway value, which is 0 in both.) -/
theorem C10_zero_gateway_like_none (env : ApipaEnv)
    (args : List (String × String)) :
    apipa env (some 0) args = apipa env none args ∧
      ∀ v, Event.store (StoreKey.gateway v) ∉ (apipa env (some 0) args).2 := by
  constructor
  · rfl
  · intro v hv
    rcases apipa_events env (some 0) args _ hv with
      ⟨t, h⟩ | ⟨ms, h⟩ | ⟨a, h⟩ | ⟨a, h⟩ | ⟨a, h⟩ | h | ⟨h, hne⟩ |
        ⟨nm, vl, h⟩
    · simp at h
    · simp at h
    · simp at h
    · simp at h
    · simp at h
    · simp at h
    · simp at hne
    · simp at h

/-- Witness for C10 at a concrete environment. -/
theorem C10_zero_gateway_like_none_witness :
    apipa c3Env (some 0) [] = apipa c3Env none [] ∧
      ∀ v, Event.store (StoreKey.gateway v) ∉ (apipa c3Env (some 0) []).2 :=
  C10_zero_gateway_like_none c3Env []

/-- C5: under intact preconditions, when every attempt before k fails (a
conflict or transmit error, i.e. non-zero probe status) and attempt k's
probe clears, the controller has advanced to attempt k rather than aborting,
and the address it installs — and the only address it ever announces or
stores as the device IP — is exactly attempt k's candidate. -/
theorem C5_first_clear_wins (env : ApipaEnv) (gw : Option Nat)
    (args : List (String × String)) (k : Nat) (hll : env.hasLL = true)
    (hopen : env.isOpen = true ∨ env.openRc = 0) (hlink : env.linkRc = 0)
    (hk : k < APIPA_MAX_ATTEMPTS)
    (hbefore : ∀ j, j < k → (apipa_attempt env j).1 ≠ 0)
    (hclear : (apipa_attempt env k).1 = 0) :
    Event.routeInstall (apipa_generate_addr env.llAddr k) APIPA_BASE
        APIPA_NETMASK (gw.getD 0) ∈ (apipa env gw args).2 ∧
      (∀ a n m g, Event.routeInstall a n m g ∈ (apipa env gw args).2 →
        a = apipa_generate_addr env.llAddr k) ∧
      (∀ t s, Event.arpAnnounceTx t s ∈ (apipa env gw args).2 →
        t = apipa_generate_addr env.llAddr k ∧
          s = apipa_generate_addr env.llAddr k) ∧
      ∀ v, Event.store (StoreKey.ip v) ∈ (apipa env gw args).2 →
        v = apipa_generate_addr env.llAddr k := by
  have hsome := apipa_loop_first_clear env APIPA_MAX_ATTEMPTS 0 k
    (by omega) (by omega) (fun j _ hj2 => hbefore j hj2) hclear
  rcases hE : apipa_loop env 0 APIPA_MAX_ATTEMPTS with ⟨o, pevs⟩
  rw [hE] at hsome
  simp only at hsome
  subst hsome
  have happ : apipa env gw args =
      ((apipa_finalize env (gw.getD 0) args k).1,
        (Event.delay (env.jitterRand % 1000) :: pevs) ++
          (apipa_finalize env (gw.getD 0) args k).2) := by
    rw [apipa_precondition_reduce env gw args hll hopen hlink, hE]
  have hloopev : ∀ e2 ∈ pevs,
      (∃ t, e2 = Event.arpProbeTx t 0) ∨ ∃ ms, e2 = Event.delay ms := by
    intro e2 he2
    have hl := apipa_loop_events env APIPA_MAX_ATTEMPTS 0 e2
    rw [hE] at hl
    exact hl he2
  rw [happ]
  refine ⟨?_, ?_, ?_, ?_⟩
  · exact List.mem_append.mpr
      (Or.inr (apipa_finalize_install_mem env (gw.getD 0) args k))
  · intro a n m g he
    simp only [List.cons_append, List.mem_cons, List.mem_append] at he
    rcases he with he | he | he
    · simp at he
    · rcases hloopev _ he with ⟨t, ht⟩ | ⟨ms, hms⟩
      · simp at ht
      · simp at hms
    · rcases apipa_finalize_events env (gw.getD 0) args k _ he with
        h | h | h | h | h | h | h
      · rw [Event.routeInstall.injEq] at h
        exact h.1
      · simp at h
      · simp at h
      · simp at h
      · simp at h
      · obtain ⟨h, _⟩ := h
        simp at h
      · obtain ⟨nm, vl, h⟩ := h
        simp at h
  · intro t s he
    simp only [List.cons_append, List.mem_cons, List.mem_append] at he
    rcases he with he | he | he
    · simp at he
    · rcases hloopev _ he with ⟨t2, ht⟩ | ⟨ms, hms⟩
      · simp at ht
      · simp at hms
    · rcases apipa_finalize_events env (gw.getD 0) args k _ he with
        h | h | h | h | h | h | h
      · simp at h
      · rw [Event.arpAnnounceTx.injEq] at h
        exact ⟨h.1, h.2⟩
      · simp at h
      · simp at h
      · simp at h
      · obtain ⟨h, _⟩ := h
        simp at h
      · obtain ⟨nm, vl, h⟩ := h
        simp at h
  · intro v he
    simp only [List.cons_append, List.mem_cons, List.mem_append] at he
    rcases he with he | he | he
    · simp at he
    · rcases hloopev _ he with ⟨t2, ht⟩ | ⟨ms, hms⟩
      · simp at ht
      · simp at hms
    · rcases apipa_finalize_events env (gw.getD 0) args k _ he with
        h | h | h | h | h | h | h
      · simp at h
      · simp at h
      · simp at h
      · rw [Event.store.injEq, StoreKey.ip.injEq] at h
        exact h
      · simp at h
      · obtain ⟨h, _⟩ := h
        simp at h
      · obtain ⟨nm, vl, h⟩ := h
        simp at h

/-- Conflicting gratuitous ARP frame whose sender protocol address is
169.254.1.3: the candidate that attempt 0 generates for the identity
02:00:00:00:00:01 below. -/
def c5Frame : Frame :=
  [255, 255, 255, 255, 255, 255, 16, 32, 48, 64, 80, 96, 8, 6,
    0, 1, 8, 0, 6, 4, 0, 1,
    16, 32, 48, 64, 80, 96, 169, 254, 1, 3,
    0, 0, 0, 0, 0, 0, 169, 254, 1, 3]

/-- Environment for the C5 witness: attempt 0's candidate appears as the
sender of a queued ARP frame (a conflict), attempt 1 probes clean. -/
def c5Env : ApipaEnv :=
  ⟨true, [2, 0, 0, 0, 0, 1], 14, true, 0, 0, 0, fun _ _ => 0,
    fun a _ => if a = 0 then [c5Frame] else [], fun _ _ => 0, 0,
    fun _ => 0, fun _ => 0, fun _ => 0⟩

/-- Witness for C5: after attempt 0 conflicts, attempt 1's address is the
one installed. -/
theorem C5_first_clear_wins_witness :
    Event.routeInstall (apipa_generate_addr c5Env.llAddr 1) APIPA_BASE
        APIPA_NETMASK (Option.getD none 0) ∈ (apipa c5Env none []).2 :=
  (C5_first_clear_wins c5Env none [] 1 rfl (Or.inl rfl) rfl (by decide)
      (by decide) (by decide)).1

/-- The complete sequence of store calls a fully successful run performs:
address, netmask, gateway only if non-zero, then the caller pairs in the
order given. -/
def apipa_full_store_list (address netmask gateway : Nat)
    (args : List (String × String)) : List Event :=
  [Event.store (StoreKey.ip address), Event.store (StoreKey.netmask netmask)]
    ++ (if gateway ≠ 0 then [Event.store (StoreKey.gateway gateway)] else [])
    ++ args.map (fun p => Event.store (StoreKey.named p.1 p.2))

theorem apipa_store_pairs_order (storeRc : StoreKey → Int)
    (parseRc : String → Int) :
    ∀ args : List (String × String),
      (∃ rest, args.map (fun p => Event.store (StoreKey.named p.1 p.2)) =
        (apipa_store_pairs storeRc parseRc args).2 ++ rest) ∧
      ((∀ key, storeRc key = 0) → (∀ s, parseRc s = 0) →
        apipa_store_pairs storeRc parseRc args =
          (0, args.map (fun p => Event.store (StoreKey.named p.1 p.2)))) := by
  intro args
  induction args with
  | nil => exact ⟨⟨[], rfl⟩, fun _ _ => rfl⟩
  | cons p rest ih =>
    obtain ⟨nm, vl⟩ := p
    have hstep : apipa_store_pairs storeRc parseRc ((nm, vl) :: rest) =
        if parseRc nm ≠ 0 then (parseRc nm, [])
        else if storeRc (StoreKey.named nm vl) ≠ 0 then
          (storeRc (StoreKey.named nm vl),
            [Event.store (StoreKey.named nm vl)])
        else
          ((apipa_store_pairs storeRc parseRc rest).1,
            Event.store (StoreKey.named nm vl) ::
              (apipa_store_pairs storeRc parseRc rest).2) := rfl
    constructor
    · by_cases hp : parseRc nm ≠ 0
      · rw [hstep, if_pos hp]
        refine ⟨Event.store (StoreKey.named nm vl) ::
          rest.map (fun p : String × String =>
            Event.store (StoreKey.named p.1 p.2)), ?_⟩
        simp
      · rw [hstep, if_neg hp]
        by_cases hs : storeRc (StoreKey.named nm vl) ≠ 0
        · rw [if_pos hs]
          refine ⟨rest.map (fun p : String × String =>
            Event.store (StoreKey.named p.1 p.2)), ?_⟩
          simp
        · rw [if_neg hs]
          obtain ⟨r, hr⟩ := ih.1
          refine ⟨r, ?_⟩
          simp only [List.map_cons, List.cons_append]
          rw [hr]
    · intro hsall hpall
      rw [hstep, if_neg (by simp [hpall nm]),
        if_neg (by simp [hsall (StoreKey.named nm vl)]), ih.2 hsall hpall]
      rfl

theorem apipa_store_settings_order (storeRc : StoreKey → Int)
    (parseRc : String → Int) (address netmask gateway : Nat)
    (args : List (String × String)) :
    (∃ rest, apipa_full_store_list address netmask gateway args =
      (apipa_store_settings storeRc parseRc address netmask gateway args).2
        ++ rest) ∧
      ((∀ key, storeRc key = 0) → (∀ s, parseRc s = 0) →
        apipa_store_settings storeRc parseRc address netmask gateway args =
          (0, apipa_full_store_list address netmask gateway args)) := by
  unfold apipa_store_settings apipa_full_store_list
  constructor
  · by_cases h1 : storeRc (StoreKey.ip address) ≠ 0
    · rw [if_pos h1]
      refine ⟨Event.store (StoreKey.netmask netmask) ::
        ((if gateway ≠ 0 then [Event.store (StoreKey.gateway gateway)]
          else []) ++
          args.map (fun p : String × String =>
            Event.store (StoreKey.named p.1 p.2))), ?_⟩
      simp
    · rw [if_neg h1]
      by_cases h2 : storeRc (StoreKey.netmask netmask) ≠ 0
      · rw [if_pos h2]
        refine ⟨(if gateway ≠ 0 then
            [Event.store (StoreKey.gateway gateway)] else []) ++
          args.map (fun p : String × String =>
            Event.store (StoreKey.named p.1 p.2)), ?_⟩
        simp
      · rw [if_neg h2]
        by_cases hg : gateway ≠ 0
        · rw [if_pos hg, if_pos hg]
          by_cases h3 : storeRc (StoreKey.gateway gateway) ≠ 0
          · rw [if_pos h3]
            refine ⟨args.map (fun p : String × String =>
              Event.store (StoreKey.named p.1 p.2)), ?_⟩
            simp
          · rw [if_neg h3]
            obtain ⟨r, hr⟩ := (apipa_store_pairs_order storeRc parseRc
              args).1
            refine ⟨r, ?_⟩
            simp [hr]
        · rw [if_neg hg, if_neg hg]
          obtain ⟨r, hr⟩ := (apipa_store_pairs_order storeRc parseRc args).1
          refine ⟨r, ?_⟩
          simp [hr]
  · intro hsall hpall
    rw [if_neg (by simp [hsall (StoreKey.ip address)]),
      if_neg (by simp [hsall (StoreKey.netmask netmask)])]
    by_cases hg : gateway ≠ 0
    · rw [if_pos hg, if_pos hg,
        if_neg (by simp [hsall (StoreKey.gateway gateway)]),
        (apipa_store_pairs_order storeRc parseRc args).2 hsall hpall]
      simp
    · rw [if_neg hg, if_neg hg,
        (apipa_store_pairs_order storeRc parseRc args).2 hsall hpall]
      simp

/-- C8: once route installation has succeeded (attempt k cleared,
install status 0): an announcement failure makes apipa return that error
with the installation still in the trace (no rollback) and with no store
call ever made; when announcements succeed, apipa returns the settings-store
status (so a store failure is returned as the error) with the installation
still in the trace; and independently the settings stores happen
sequentially in the order address, netmask, gateway only if non-zero, then
the caller pairs in order — the emitted store calls always form a prefix of
that full sequence (the first failure aborts the remaining stores, leaving
the earlier calls in place), the whole sequence exactly when every parse
and store succeeds. -/
theorem C8_no_rollback_and_store_order (env : ApipaEnv) (gw : Option Nat)
    (args : List (String × String)) (k : Nat) (hll : env.hasLL = true)
    (hopen : env.isOpen = true ∨ env.openRc = 0) (hlink : env.linkRc = 0)
    (hk : k < APIPA_MAX_ATTEMPTS)
    (hbefore : ∀ j, j < k → (apipa_attempt env j).1 ≠ 0)
    (hclear : (apipa_attempt env k).1 = 0)
    (hinstall : env.installRc = 0) :
    ((apipa_announce env.announceTx
        (apipa_generate_addr env.llAddr k)).1 ≠ 0 →
      (apipa env gw args).1 =
          (apipa_announce env.announceTx
            (apipa_generate_addr env.llAddr k)).1 ∧
        Event.routeInstall (apipa_generate_addr env.llAddr k) APIPA_BASE
            APIPA_NETMASK (gw.getD 0) ∈ (apipa env gw args).2 ∧
        ∀ key, Event.store key ∉ (apipa env gw args).2) ∧
      ((apipa_announce env.announceTx
          (apipa_generate_addr env.llAddr k)).1 = 0 →
        (apipa env gw args).1 =
            (apipa_store_settings env.storeRc env.parseRc
              (apipa_generate_addr env.llAddr k) APIPA_NETMASK (gw.getD 0)
              args).1 ∧
          Event.routeInstall (apipa_generate_addr env.llAddr k) APIPA_BASE
            APIPA_NETMASK (gw.getD 0) ∈ (apipa env gw args).2) ∧
      ∀ (storeRc : StoreKey → Int) (parseRc : String → Int)
        (a m g : Nat) (args2 : List (String × String)),
        (∃ rest, apipa_full_store_list a m g args2 =
          (apipa_store_settings storeRc parseRc a m g args2).2 ++ rest) ∧
        ((∀ key, storeRc key = 0) → (∀ s, parseRc s = 0) →
          apipa_store_settings storeRc parseRc a m g args2 =
            (0, apipa_full_store_list a m g args2)) := by
  have hsome := apipa_loop_first_clear env APIPA_MAX_ATTEMPTS 0 k
    (by omega) (by omega) (fun j _ hj2 => hbefore j hj2) hclear
  rcases hE : apipa_loop env 0 APIPA_MAX_ATTEMPTS with ⟨o, pevs⟩
  rw [hE] at hsome
  simp only at hsome
  subst hsome
  have happ : apipa env gw args =
      ((apipa_finalize env (gw.getD 0) args k).1,
        (Event.delay (env.jitterRand % 1000) :: pevs) ++
          (apipa_finalize env (gw.getD 0) args k).2) := by
    rw [apipa_precondition_reduce env gw args hll hopen hlink, hE]
  have hloopev : ∀ e2 ∈ pevs,
      (∃ t, e2 = Event.arpProbeTx t 0) ∨ ∃ ms, e2 = Event.delay ms := by
    intro e2 he2
    have hl := apipa_loop_events env APIPA_MAX_ATTEMPTS 0 e2
    rw [hE] at hl
    exact hl he2
  refine ⟨?_, ?_, ?_⟩
  · intro hann
    have hfin : apipa_finalize env (gw.getD 0) args k =
        ((apipa_announce env.announceTx
            (apipa_generate_addr env.llAddr k)).1,
          Event.routeInstall (apipa_generate_addr env.llAddr k) APIPA_BASE
              APIPA_NETMASK (gw.getD 0) ::
            (apipa_announce env.announceTx
              (apipa_generate_addr env.llAddr k)).2) := by
      unfold apipa_finalize
      rw [if_neg (by simp [hinstall]), if_pos hann]
    rw [happ, hfin]
    refine ⟨rfl, ?_, ?_⟩
    · simp
    · intro key hkey
      simp only [List.cons_append, List.mem_cons, List.mem_append] at hkey
      rcases hkey with h | h | h | h
      · simp at h
      · rcases hloopev _ h with ⟨t, ht⟩ | ⟨ms, hms⟩
        · simp at ht
        · simp at hms
      · simp at h
      · rcases apipa_announce_events env.announceTx
          (apipa_generate_addr env.llAddr k) _ h with h2 | h2
        · simp at h2
        · simp at h2
  · intro hann
    have hfin : apipa_finalize env (gw.getD 0) args k =
        ((apipa_store_settings env.storeRc env.parseRc
            (apipa_generate_addr env.llAddr k) APIPA_NETMASK (gw.getD 0)
            args).1,
          Event.routeInstall (apipa_generate_addr env.llAddr k) APIPA_BASE
              APIPA_NETMASK (gw.getD 0) ::
            ((apipa_announce env.announceTx
                (apipa_generate_addr env.llAddr k)).2 ++
              (apipa_store_settings env.storeRc env.parseRc
                (apipa_generate_addr env.llAddr k) APIPA_NETMASK (gw.getD 0)
                args).2)) := by
      unfold apipa_finalize
      rw [if_neg (by simp [hinstall]), if_neg (by simp [hann])]
    rw [happ, hfin]
    exact ⟨rfl, by simp⟩
  · intro storeRc parseRc a m g args2
    exact apipa_store_settings_order storeRc parseRc a m g args2

/-- Environment for the C8 witness: attempt 0 probes clean, installation
succeeds, but the first announcement transmission fails with -7. -/
def c8Env : ApipaEnv :=
  ⟨true, [2, 0, 0, 0, 0, 1], 14, true, 0, 0, 0, fun _ _ => 0,
    fun _ _ => [], fun _ _ => 0, 0, fun _ => -7, fun _ => 0, fun _ => 0⟩

/-- Witness for C8: announcement failure returns the error, the route
installation stays in the trace, and no store call was made. -/
theorem C8_no_rollback_and_store_order_witness :
    (apipa c8Env none []).1 =
        (apipa_announce c8Env.announceTx
          (apipa_generate_addr c8Env.llAddr 0)).1 ∧
      Event.routeInstall (apipa_generate_addr c8Env.llAddr 0) APIPA_BASE
          APIPA_NETMASK (Option.getD none 0) ∈ (apipa c8Env none []).2 ∧
      ∀ key, Event.store key ∉ (apipa c8Env none []).2 :=
  (C8_no_rollback_and_store_order c8Env none [] 0 rfl (Or.inl rfl) rfl
      (by decide) (fun j hj => absurd hj (by omega)) (by decide) rfl).1
    (by decide)
